import Mathlib

/-!
# Verification of the Curiosity Quiz session logic (`src/app.py`)

Shallow embedding of the quiz application's session state machine:
the Streamlit session record, the orchestrator functions
(`start_quiz`, `next_question`, `generate_summary`, `restart_game`,
`reset_turn_state`, the answer-button handler), and the two API helper
functions (`get_quiz_question`, `get_summary_with_sources`).

Modelling conventions:
* `st.session_state` is the `Session` structure; every field of the Python
  session dict is a field of the structure.
* The remote API is an oracle: each orchestrator function takes the outcome
  of its network call as an explicit argument (`ApiResp` for the SDK quiz
  call, `HttpResult` for the direct `requests.post` summary call).
  For the quiz call the oracle value carries both the returned content
  string and the result of `json.loads` on it (`none` = the parse raised),
  since the Python code composes `get_quiz_question` with `json.loads`.
* Functions that can raise an uncaught Python exception return
  `Option Session`; `none` models the crash (unhandled exception).
* Python values parsed from JSON are the `Json` inductive; subscripting a
  dict or list is partial (`Json.get`, `Json.index`), mirroring
  KeyError / IndexError / TypeError.
-/

/-- A JSON value as produced by `json.loads`. Objects are association
lists (first binding wins on lookup; `json.loads` never produces
duplicate keys). -/
inductive Json where
  | null
  | bool (b : Bool)
  | num (n : Int)
  | str (s : String)
  | arr (elems : List Json)
  | obj (fields : List (String × Json))
deriving Repr

/-- Dict subscript `j[k]`: succeeds only on an object that has the key;
anything else raises in Python (KeyError / TypeError), modelled as `none`. -/
def Json.get (j : Json) (k : String) : Option Json :=
  match j with
  | .obj fields => fields.lookup k
  | _ => none

/-- Sequence subscript `j[i]` for a non-negative index: JSON arrays index
into the list, JSON strings index into the characters (a 1-character
string, as in Python); every other value raises, modelled as `none`. -/
def Json.index (j : Json) (i : Nat) : Option Json :=
  match j with
  | .arr elems => elems[i]?
  | .str s => (s.toList[i]?).map (fun c => Json.str (String.singleton c))
  | _ => none

/-- Python `n == j` for a non-negative `int` `n` against a JSON value:
numbers compare by value, `True`/`False` compare as `1`/`0`
(Python `bool` is an `int` subtype), everything else is `False`
(no exception). Used for `selected_option_index == q['correct_option_index']`. -/
def pyEqIdx (n : Nat) (j : Json) : Bool :=
  match j with
  | .num m => (n : Int) == m
  | .bool b => (n : Int) == (if b then 1 else 0)
  | _ => false

/-- Python `str(x)` for a value that is a string or `None`
(`result.get('url')` can give `None`, rendered as `"None"` by the f-string). -/
def pyStr (o : Option String) : String :=
  match o with
  | some s => s
  | none => "None"

/-- One entry of `st.session_state.history`, the `turn_data` dict built in
`next_question`: the raw question object, the selected option's value
(`options[selected_option_index]`, not the index), and the correctness flag. -/
structure Turn where
  question_data : Json
  user_answer : Json
  is_correct : Bool
deriving Repr

/-- The Streamlit session state: exactly the keys set by the initializer at
the top of `src/app.py`. `game_state` is the literal Python string
(`'start'`, `'quiz'`, `'summary'`). -/
structure Session where
  game_state : String
  topic : String
  history : List Turn
  current_question : Option Json
  summary_content : Option String
  selected_option_index : Option Nat
  is_answered : Bool
  error : Option String
deriving Repr

/-- The `if 'game_state' not in st.session_state:` initializer block. -/
def initSession : Session :=
  { game_state := "start"
    topic := ""
    history := []
    current_question := none
    summary_content := none
    selected_option_index := none
    is_answered := false
    error := none }

/-- `reset_turn_state()`. -/
def reset_turn_state (s : Session) : Session :=
  { s with selected_option_index := none, is_answered := false, error := none }

/-- `restart_game()`: deletes every session key and reruns, so the
initializer block recreates the initial session. -/
def restart_game (_s : Session) : Session :=
  initSession

/-- The answer-button handler (lines 205–208): stores the clicked option's
index and marks the turn answered. -/
def submit_answer (i : Nat) (s : Session) : Session :=
  { s with selected_option_index := some i, is_answered := true }

/-- Outcome of the SDK call made by `get_quiz_question`, as seen by its
callers: `err msg` is the except-branch (the helper stored `msg` in
`st.session_state.error` and returned `None`); `ok content parsed` is a
returned content string together with the result of `json.loads content`
(`none` = `json.loads` raises). -/
inductive ApiResp where
  | err (msg : String)
  | ok (content : String) (parsed : Option Json)
deriving Repr

/-- `start_quiz(topic)`: stores the topic and clears the history *before*
the request; on SDK failure only the error field is set further; on success
(`if response_content:` — nonempty string) the parsed body is installed
unvalidated as the current question and the state becomes `'quiz'`.
`none` models the uncaught `json.loads` exception on non-JSON content. -/
def start_quiz (topic : String) (resp : ApiResp) (s : Session) : Option Session :=
  let s1 := { s with topic := topic, history := [] }
  match resp with
  | .err msg => some { s1 with error := some msg }
  | .ok content parsed =>
    if content ≠ "" then
      match parsed with
      | none => none
      | some q =>
        some (reset_turn_state { s1 with current_question := some q, game_state := "quiz" })
    else
      some s1

/-- The `turn_data` dict literal in `next_question`, evaluated field by
field: `q['options'][sel]` then `sel == q['correct_option_index']`;
`none` models the exception when a subscript fails. -/
def mkTurn (q : Json) (sel : Nat) : Option Turn := do
  let opts ← q.get "options"
  let ans ← opts.index sel
  let ci ← q.get "correct_option_index"
  pure { question_data := q, user_answer := ans, is_correct := pyEqIdx sel ci }

/-- `next_question()`: appends the current Q&A as a turn; at 5 turns flips
to `'summary'` without a request; otherwise requests the next question and,
on success, installs it and resets the per-turn fields (on failure only the
error field is set). `none` models an uncaught exception (missing current
question or selection, bad subscript, or `json.loads` raising). -/
def next_question (resp : ApiResp) (s : Session) : Option Session := do
  let q ← s.current_question
  let sel ← s.selected_option_index
  let t ← mkTurn q sel
  let s1 := { s with history := s.history ++ [t] }
  if s1.history.length ≥ 5 then
    pure { s1 with game_state := "summary" }
  else
    match resp with
    | .err msg => pure { s1 with error := some msg }
    | .ok content parsed =>
      if content ≠ "" then
        match parsed with
        | none => none
        | some q2 => pure (reset_turn_state { s1 with current_question := some q2 })
      else
        pure s1

/-- One record of the `search_results` list of the summary response body.
Fields are read with `dict.get`: a missing `title` defaults to
`'Source Link'`, a missing `url` gives `None`. -/
structure SourceRecord where
  title : Option String
  url : Option String
deriving Repr, DecidableEq

/-- The parts of the summary response body that `get_summary_with_sources`
reads: `data['choices'][0]['message']['content']` and
`data.get('search_results', [])` (an absent list is the empty list). -/
structure SummaryData where
  content : String
  search_results : List SourceRecord
deriving Repr

/-- Outcome of the `requests.post` call (and body decoding) in
`get_summary_with_sources`: `httpError` is a non-2xx status, raised by
`raise_for_status()` and caught by the `HTTPError` handler; `exn desc` is
any other exception — network failure, timeout, malformed body — caught by
the generic `except Exception` handler; `ok` is a decoded 2xx body. -/
inductive HttpResult where
  | httpError (status : Nat) (text : String)
  | exn (desc : String)
  | ok (data : SummaryData)
deriving Repr

/-- One line of the sources list: `f"{i+1}. [{title}]({url})\n"` with
`result.get('title', 'Source Link')` and `result.get('url')`. -/
def sourceEntry (i : Nat) (r : SourceRecord) : String :=
  toString (i + 1) ++ ". [" ++ r.title.getD "Source Link" ++ "](" ++ pyStr r.url ++ ")\n"

/-- The Markdown block appended when `search_results` is non-empty:
the header plus one numbered line per record, in list order. -/
def sourcesSection (rs : List SourceRecord) : String :=
  "\n\n---\n\n### Sources\n" ++ String.join (rs.enum.map (fun p => sourceEntry p.1 p.2))

/-- `get_summary_with_sources(messages, model)`: on a 2xx body, the content
with the sources block appended when `search_results` is truthy (non-empty);
on an error, stores the branch's message in `st.session_state.error` and
returns `None`. The pair is (returned value, updated session). -/
def get_summary_with_sources (resp : HttpResult) (s : Session) : Option String × Session :=
  match resp with
  | .httpError status text =>
    (none, { s with error := some ("API Error: " ++ toString status ++ " - " ++ text) })
  | .exn desc =>
    (none, { s with error := some ("An unexpected error occurred: " ++ desc) })
  | .ok data =>
    if data.search_results.isEmpty then
      (some data.content, s)
    else
      (some (data.content ++ sourcesSection data.search_results), s)

/-- `generate_summary()`: calls `get_summary_with_sources` and, when the
returned value is truthy (a nonempty string), stores it as the summary
content. (The transcript/message construction only feeds the request and
is not modelled.) -/
def generate_summary (resp : HttpResult) (s : Session) : Session :=
  match get_summary_with_sources resp s with
  | (some c, s1) => if c ≠ "" then { s1 with summary_content := some c } else s1
  | (none, s1) => s1

/-- The keyword arguments of the `requests.post` call in
`get_summary_with_sources`. The source passes `url`, `json` and `headers`
and *no* `timeout` keyword, so the timeout field is `none`. -/
structure HttpPostCall where
  url : String
  timeout : Option Nat
deriving Repr

/-- The one `requests.post` call the program makes (line 92). -/
def summaryPostCall : HttpPostCall :=
  { url := "https://api.perplexity.ai/chat/completions", timeout := none }

/-- The UI-driven transition relation of the session state machine: one user
interaction (with the oracle outcome of any network call it triggers) takes
`s` to `s'`. Guards follow the rendering conditions in `src/app.py`:
every screen except the error screen requires a falsy `error`; the topic
form only submits a nonempty topic; answer buttons exist only for an
unanswered question in the quiz screen; the next/finish button only for an
answered one; the summary screen fires `generate_summary` once; restart is
available from the error and summary screens (we allow it anywhere).
Crashing outcomes (`none`) produce no transition. The answer-button index
is left unbounded, a sound over-approximation of the rendered buttons. -/
inductive Step : Session → Session → Prop where
  | start (topic : String) (resp : ApiResp) (s s' : Session) :
      s.error = none → s.game_state = "start" → topic ≠ "" →
      start_quiz topic resp s = some s' → Step s s'
  | answer (i : Nat) (s : Session) :
      s.error = none → s.game_state = "quiz" → s.current_question ≠ none →
      s.is_answered = false → Step s (submit_answer i s)
  | next (resp : ApiResp) (s s' : Session) :
      s.error = none → s.game_state = "quiz" → s.current_question ≠ none →
      s.is_answered = true → next_question resp s = some s' → Step s s'
  | summary (resp : HttpResult) (s : Session) :
      s.error = none → s.game_state = "summary" → s.summary_content = none →
      Step s (generate_summary resp s)
  | restart (s : Session) : Step s (restart_game s)

/-- A session is reachable when some sequence of interactions produces it
from the initializer's session. -/
def Reachable (s : Session) : Prop :=
  Relation.ReflTransGen Step initSession s

/-! ### Concrete sample values (used by witnesses and counterexamples) -/

/-- A well-formed question object of the shape the JSON schema requires. -/
def sampleQuestion : Json :=
  .obj [("question_text", .str "Which planet is largest?"),
        ("options", .arr [.str "Mars", .str "Venus", .str "Jupiter", .str "Earth"]),
        ("correct_option_index", .num 2),
        ("explanation", .str "Jupiter is the largest planet.")]

/-- A well-formed question object whose four options contain a duplicate
string at indices 0 and 1. -/
def dupOptionsQuestion : Json :=
  .obj [("question_text", .str "Pick A"),
        ("options", .arr [.str "A", .str "A", .str "B", .str "C"]),
        ("correct_option_index", .num 2),
        ("explanation", .str "the third option")]

/-- A response body that is valid JSON but has no `options` field. -/
def noOptionsQuestion : Json :=
  .obj [("question_text", .str "q"),
        ("correct_option_index", .num 0),
        ("explanation", .str "e")]

/-- A mid-quiz session showing `sampleQuestion`, answered with option 2. -/
def sampleQuizSession : Session :=
  { game_state := "quiz"
    topic := "planets"
    history := []
    current_question := some sampleQuestion
    summary_content := none
    selected_option_index := some 2
    is_answered := true
    error := none }

/-- The turn `next_question` builds from `sampleQuizSession`. -/
def sampleTurn : Turn :=
  (mkTurn sampleQuestion 2).getD { question_data := .null, user_answer := .null, is_correct := false }

/-- The session `next_question` produces from `sampleQuizSession` when the
next-question request fails with message `"m"`. -/
def sampleAdvanced : Session :=
  (next_question (ApiResp.err "m") sampleQuizSession).getD initSession

/-- A source record with both fields present. -/
def sampleSourceA : SourceRecord :=
  { title := some "Alpha", url := some "https://a.example" }

/-- A source record with both fields missing. -/
def sampleSourceB : SourceRecord :=
  { title := none, url := none }

/-- A summary body with two source records. -/
def sampleSummaryData : SummaryData :=
  { content := "Well done.", search_results := [sampleSourceA, sampleSourceB] }

/-- A summary body with no source records. -/
def emptySummaryData : SummaryData :=
  { content := "Well done.", search_results := [] }

/-! ### Helper lemmas -/

/-- Every successful `start_quiz` outcome has an empty history and a game
state that is either unchanged (failure paths) or `'quiz'` (success path). -/
theorem start_quiz_history_gameState {topic : String} {resp : ApiResp} {s s' : Session}
    (h : start_quiz topic resp s = some s') :
    s'.history = [] ∧ (s'.game_state = s.game_state ∨ s'.game_state = "quiz") := by
  cases resp with
  | err msg =>
    simp only [start_quiz] at h
    cases h
    exact ⟨rfl, Or.inl rfl⟩
  | ok content parsed =>
    simp only [start_quiz] at h
    split at h
    · cases parsed with
      | none => cases h
      | some q =>
        cases h
        exact ⟨rfl, Or.inr rfl⟩
    · cases h
      exact ⟨rfl, Or.inl rfl⟩

/-- Every successful `next_question` outcome appends exactly one turn,
built by `mkTurn` from the current question and selection; the game state
becomes `'summary'` exactly when the appended history has length ≥ 5 and
is otherwise unchanged. -/
theorem next_question_spec {resp : ApiResp} {s s' : Session}
    (h : next_question resp s = some s') :
    ∃ q sel t, s.current_question = some q ∧ s.selected_option_index = some sel ∧
      mkTurn q sel = some t ∧ s'.history = s.history ++ [t] ∧
      ((s.history.length + 1 ≥ 5 ∧ s'.game_state = "summary") ∨
       (s.history.length + 1 < 5 ∧ s'.game_state = s.game_state)) := by
  cases hq : s.current_question with
  | none => simp [next_question, hq] at h
  | some q =>
  cases hsel : s.selected_option_index with
  | none => simp [next_question, hq, hsel] at h
  | some sel =>
  cases ht : mkTurn q sel with
  | none => simp [next_question, hq, hsel, ht] at h
  | some t =>
  refine ⟨q, sel, t, rfl, rfl, ht, ?_⟩
  simp only [next_question, hq, hsel, ht, Option.bind_eq_bind, Option.some_bind] at h
  by_cases hlen : s.history.length + 1 ≥ 5
  · rw [if_pos (by simpa using hlen)] at h
    cases h
    exact ⟨rfl, Or.inl ⟨hlen, rfl⟩⟩
  · rw [if_neg (by simpa using hlen)] at h
    cases resp with
    | err msg =>
      cases h
      exact ⟨rfl, Or.inr ⟨by omega, rfl⟩⟩
    | ok content parsed =>
      simp only at h
      split at h
      · cases parsed with
        | none => cases h
        | some q2 =>
          cases h
          exact ⟨rfl, Or.inr ⟨by omega, rfl⟩⟩
      · cases h
        exact ⟨rfl, Or.inr ⟨by omega, rfl⟩⟩

/-- The store step of `generate_summary` changes neither the history nor
the game state. -/
theorem setSummary_frame (c : String) (s : Session) :
    (if c ≠ "" then { s with summary_content := some c } else s).history = s.history ∧
    (if c ≠ "" then { s with summary_content := some c } else s).game_state = s.game_state := by
  split <;> exact ⟨rfl, rfl⟩

/-- `generate_summary` changes neither the history nor the game state. -/
theorem generate_summary_frame (resp : HttpResult) (s : Session) :
    (generate_summary resp s).history = s.history ∧
    (generate_summary resp s).game_state = s.game_state := by
  cases resp with
  | httpError status text => exact ⟨rfl, rfl⟩
  | exn desc => exact ⟨rfl, rfl⟩
  | ok data =>
    simp only [generate_summary, get_summary_with_sources]
    by_cases hemp : data.search_results.isEmpty = true
    · rw [if_pos hemp]
      exact setSummary_frame data.content s
    · rw [if_neg hemp]
      exact setSummary_frame (data.content ++ sourcesSection data.search_results) s

/-- Python `sel == q['correct_option_index']` agrees with equality of the
indices when the field is the integer `k`. -/
theorem pyEqIdx_num (sel k : Nat) : pyEqIdx sel (Json.num (k : Int)) = decide (sel = k) := by
  unfold pyEqIdx
  by_cases h : sel = k
  · subst h
    simp
  · have hcast : ((sel : Int) = (k : Int)) ↔ sel = k := by exact_mod_cast Iff.rfl
    simp [h, hcast]

/-- Unfolding of a successful `mkTurn`: the turn is built from the question
object, the option at the selected index, and the Python comparison with
the `correct_option_index` field. -/
theorem mkTurn_eq {q : Json} {sel : Nat} {t : Turn} (ht : mkTurn q sel = some t) :
    ∃ opts ans ci, q.get "options" = some opts ∧ opts.index sel = some ans ∧
      q.get "correct_option_index" = some ci ∧
      t = { question_data := q, user_answer := ans, is_correct := pyEqIdx sel ci } := by
  cases hopts : q.get "options" with
  | none => simp [mkTurn, hopts] at ht
  | some opts =>
  cases hans : opts.index sel with
  | none => simp [mkTurn, hopts, hans] at ht
  | some ans =>
  cases hci : q.get "correct_option_index" with
  | none => simp [mkTurn, hopts, hans, hci] at ht
  | some ci =>
  refine ⟨opts, ans, ci, rfl, hans, rfl, ?_⟩
  simp only [mkTurn, hopts, hans, hci, Option.bind_eq_bind, Option.some_bind, Option.pure_def,
    Option.some.injEq] at ht
  exact ht.symm

/-- The history/game-state invariant maintained by every interaction:
at most 5 turns, strictly fewer while the quiz is running, exactly 5 in
the summary state. -/
def HistInv (s : Session) : Prop :=
  s.history.length ≤ 5 ∧
  (s.game_state = "quiz" → s.history.length < 5) ∧
  (s.game_state = "summary" → s.history.length = 5)

/-- The initializer's session satisfies the invariant. -/
theorem histInv_init : HistInv initSession := by
  refine ⟨by decide, ?_, ?_⟩ <;> intro h <;> simp [initSession] at h

/-- Every interaction preserves the invariant. -/
theorem histInv_step {s s' : Session} (hstep : Step s s') (hinv : HistInv s) : HistInv s' := by
  cases hstep with
  | start topic resp _ _ herr hgs htop heq =>
    obtain ⟨hh, hg⟩ := start_quiz_history_gameState heq
    refine ⟨by simp [hh], fun _ => by simp [hh], fun hsum => ?_⟩
    rcases hg with hg | hg
    · rw [hg, hgs] at hsum
      exact absurd hsum (by decide)
    · rw [hg] at hsum
      exact absurd hsum (by decide)
  | answer i _ herr hgs hq hans =>
    exact hinv
  | next resp _ _ herr hgs hq hans heq =>
    obtain ⟨q, sel, t, _, _, _, hh, hcase⟩ := next_question_spec heq
    have hlt : s.history.length < 5 := hinv.2.1 hgs
    rcases hcase with ⟨hge, hsum⟩ | ⟨hlt2, hgs2⟩
    · refine ⟨by rw [hh]; simp; omega, fun hq2 => ?_, fun _ => by rw [hh]; simp; omega⟩
      rw [hsum] at hq2
      exact absurd hq2 (by decide)
    · refine ⟨by rw [hh]; simp; omega, fun _ => by rw [hh]; simp; omega, fun hsum => ?_⟩
      rw [hgs2, hgs] at hsum
      exact absurd hsum (by decide)
  | summary resp _ herr hgs hnone =>
    obtain ⟨hh, hg⟩ := generate_summary_frame resp s
    exact ⟨by rw [hh]; exact hinv.1, fun h => by rw [hg] at h; rw [hh]; exact hinv.2.1 h,
      fun h => by rw [hg] at h; rw [hh]; exact hinv.2.2 h⟩
  | restart _ =>
    exact histInv_init

/-- Every reachable session satisfies the invariant. -/
theorem reachable_histInv {s : Session} (h : Reachable s) : HistInv s := by
  have h2 : Relation.ReflTransGen Step initSession s := h
  clear h
  induction h2 with
  | refl => exact histInv_init
  | tail _ hstep ih => exact histInv_step hstep ih


/-! ### Claim theorems -/

/-- Claim C1 (code-bug evidence): a structured-mode response whose body is
valid JSON but has no `options` field is installed unvalidated as the
current question, with the state moved to `'quiz'` and no error stored —
there is no local shape validation; and a body that is not valid JSON
makes `start_quiz` raise an uncaught exception (modelled as `none`), a
crash rather than an `error` transition. -/
theorem start_quiz_installs_unvalidated_question :
    noOptionsQuestion.get "options" = none ∧
    start_quiz "Rome" (ApiResp.ok "\x7b...\x7d" (some noOptionsQuestion)) initSession
      = some { initSession with
               topic := "Rome"
               game_state := "quiz"
               current_question := some noOptionsQuestion } ∧
    start_quiz "Rome" (ApiResp.ok "not json" none) initSession = none :=
  ⟨rfl, rfl, rfl⟩

/-- Claim C2 (code-bug evidence): the summary `requests.post` call carries
no `timeout` keyword, and an exception that is not an `HTTPError` — a
timeout in particular — is handled by the generic branch, which stores the
generic unexpected-error message (there is no timeout-specific,
topic-narrowing message anywhere in the program). -/
theorem summary_call_timeout_handling (s : Session) (desc : String) :
    summaryPostCall.timeout = none ∧
    (get_summary_with_sources (HttpResult.exn desc) s).2.error
      = some ("An unexpected error occurred: " ++ desc) ∧
    (get_summary_with_sources (HttpResult.exn desc) s).1 = none :=
  ⟨rfl, rfl, rfl⟩

/-- Claim C3 (counterexample): a failed `start_quiz("Rome")` leaves the
session with `topic = "Rome"`, not an unset (empty) topic, because the
topic is stored before the request is made. -/
theorem start_quiz_failure_topic_cex :
    (start_quiz "Rome" (ApiResp.err "API Error: boom") initSession).map Session.topic
      = some "Rome" ∧
    (start_quiz "Rome" (ApiResp.err "API Error: boom") initSession).map Session.error
      = some (some "API Error: boom") ∧
    ("Rome" : String) ≠ "" :=
  ⟨rfl, rfl, by decide⟩

/-- Claim C3 (amended): when the question request of `start_quiz(topic)`
fails, the session's error field is set to the failure message and the
game state is unchanged (still `'start'`), but the topic field holds the
requested topic — it is assigned before the request — and the history is
cleared. -/
theorem start_quiz_failure_sets_error (topic msg : String) (s : Session) :
    start_quiz topic (ApiResp.err msg) s
      = some { s with topic := topic, history := [], error := some msg } :=
  rfl

/-- Claim C4: every reachable session has at most 5 turns of history, equal
to exactly 5 whenever the state is `'summary'`; and every successful
`next_question` appends exactly one turn to the history. -/
theorem quiz_history_invariant :
    (∀ s : Session, Reachable s →
      s.history.length ≤ 5 ∧ (s.game_state = "summary" → s.history.length = 5)) ∧
    (∀ (resp : ApiResp) (s s' : Session), next_question resp s = some s' →
      ∃ t : Turn, s'.history = s.history ++ [t]) := by
  constructor
  · intro s h
    have hinv := reachable_histInv h
    exact ⟨hinv.1, hinv.2.2⟩
  · intro resp s s' heq
    obtain ⟨q, sel, t, _, _, _, hh, _⟩ := next_question_spec heq
    exact ⟨t, hh⟩

/-- Witness for C4 at concrete inputs: the initial session, and one
failing advance from `sampleQuizSession`. -/
theorem quiz_history_invariant_witness :
    (initSession.history.length ≤ 5 ∧
      (initSession.game_state = "summary" → initSession.history.length = 5)) ∧
    (∃ t : Turn, sampleAdvanced.history = sampleQuizSession.history ++ [t]) :=
  ⟨quiz_history_invariant.1 initSession Relation.ReflTransGen.refl,
   quiz_history_invariant.2 (ApiResp.err "m") sampleQuizSession sampleAdvanced rfl⟩

/-- Claim C5: the correctness flag of the turn recorded by `next_question`
equals the comparison of the selected option index with the question's
`correct_option_index`. -/
theorem advance_correctness_flag (s s' : Session) (q : Json) (sel k : Nat) (resp : ApiResp)
    (hq : s.current_question = some q)
    (hsel : s.selected_option_index = some sel)
    (hk : q.get "correct_option_index" = some (Json.num (k : Int)))
    (hstep : next_question resp s = some s') :
    ∃ t : Turn, s'.history = s.history ++ [t] ∧ t.is_correct = decide (sel = k) := by
  obtain ⟨q2, sel2, t, hq2, hsel2, ht, hh, _⟩ := next_question_spec hstep
  rw [hq] at hq2
  rw [hsel] at hsel2
  cases hq2
  cases hsel2
  obtain ⟨opts, ans, ci, _, _, hci, hteq⟩ := mkTurn_eq ht
  rw [hk] at hci
  cases hci
  refine ⟨t, hh, ?_⟩
  rw [hteq]
  exact pyEqIdx_num sel k

/-- Witness for C5 at concrete inputs: `sampleQuizSession`, selected
option 2, correct option 2. -/
theorem advance_correctness_flag_witness :
    ∃ t : Turn, sampleAdvanced.history = sampleQuizSession.history ++ [t] ∧
      t.is_correct = decide (2 = 2) :=
  advance_correctness_flag sampleQuizSession sampleAdvanced sampleQuestion 2 2 (ApiResp.err "m")
    rfl rfl rfl rfl

/-- Claim C6: with an empty (or absent, decoded as empty) `search_results`
list the returned summary is exactly the response content, with nothing
appended; with a non-empty list of `n` records it is the content followed
by a `Sources` section whose entries are numbered `1..n` and formatted as
Markdown links from the records' `title`/`url` fields, in list order. -/
theorem summary_sources_formatting (s : Session) (data : SummaryData) :
    (data.search_results = [] →
      (get_summary_with_sources (HttpResult.ok data) s).1 = some data.content) ∧
    (data.search_results ≠ [] →
      ∃ entries : List String,
        (get_summary_with_sources (HttpResult.ok data) s).1
          = some (data.content ++ ("\n\n---\n\n### Sources\n" ++ String.join entries)) ∧
        entries.length = data.search_results.length ∧
        ∀ (i : Nat) (r : SourceRecord), data.search_results[i]? = some r →
          entries[i]? = some (toString (i + 1) ++ ". [" ++ r.title.getD "Source Link" ++
            "](" ++ pyStr r.url ++ ")\n")) := by
  constructor
  · intro hemp
    simp [get_summary_with_sources, hemp]
  · intro hne
    refine ⟨data.search_results.enum.map (fun p => sourceEntry p.1 p.2), ?_, ?_, ?_⟩
    · have hne2 : data.search_results.isEmpty = false := by
        simp [List.isEmpty_iff, hne]
      simp [get_summary_with_sources, hne2, sourcesSection]
    · simp [List.enum_length]
    · intro i r hi
      simp [List.getElem?_map, List.getElem?_enum, hi, sourceEntry]

/-- Witness for C6 at concrete inputs: an empty-source body and a
two-source body. -/
theorem summary_sources_formatting_witness :
    (get_summary_with_sources (HttpResult.ok emptySummaryData) initSession).1
      = some emptySummaryData.content ∧
    (∃ entries : List String,
      (get_summary_with_sources (HttpResult.ok sampleSummaryData) initSession).1
        = some (sampleSummaryData.content ++ ("\n\n---\n\n### Sources\n" ++ String.join entries)) ∧
      entries.length = sampleSummaryData.search_results.length ∧
      ∀ (i : Nat) (r : SourceRecord), sampleSummaryData.search_results[i]? = some r →
        entries[i]? = some (toString (i + 1) ++ ". [" ++ r.title.getD "Source Link" ++
          "](" ++ pyStr r.url ++ ")\n")) :=
  ⟨(summary_sources_formatting initSession emptySummaryData).1 rfl,
   (summary_sources_formatting initSession sampleSummaryData).2 (by decide)⟩

/-- Claim C7: restarting from any session yields the initializer's session:
state `'start'`, empty topic, empty history, and every other field cleared. -/
theorem restart_clears_session (s : Session) :
    restart_game s = initSession ∧
    (restart_game s).game_state = "start" ∧
    (restart_game s).topic = "" ∧
    (restart_game s).history = [] :=
  ⟨rfl, rfl, rfl, rfl⟩

/-- Claim C8 (counterexample): the recorded turn does not determine the
selected option index — two different selections (indices 0 and 1) of a
question with duplicate option strings produce identical turns, so the
turn records the selected option's text, not its index. -/
theorem turn_omits_selected_index_cex :
    mkTurn dupOptionsQuestion 0 = mkTurn dupOptionsQuestion 1 ∧ (0 : Nat) ≠ 1 :=
  ⟨rfl, by decide⟩

/-- Claim C8 (amended): every turn appended to the history records the
question object, the *text* of the user-selected option (the value at the
selected index of the question's `options`), and the derived correctness
flag; and the history is append-only — every interaction either appends
to it or resets it to empty, so an appended turn is never mutated. -/
theorem turn_contents_and_history_append_only :
    (∀ (q : Json) (sel : Nat) (t : Turn), mkTurn q sel = some t →
      t.question_data = q ∧
      ∃ opts, q.get "options" = some opts ∧ opts.index sel = some t.user_answer) ∧
    (∀ s s' : Session, Step s s' →
      (∃ ts : List Turn, s'.history = s.history ++ ts) ∨ s'.history = []) := by
  constructor
  · intro q sel t ht
    obtain ⟨opts, ans, ci, hopts, hans, hci, hteq⟩ := mkTurn_eq ht
    subst hteq
    exact ⟨rfl, opts, hopts, hans⟩
  · intro s s' hstep
    cases hstep with
    | start topic resp _ _ herr hgs htop heq =>
      exact Or.inr (start_quiz_history_gameState heq).1
    | answer i _ herr hgs hq hans =>
      exact Or.inl ⟨[], by simp [submit_answer]⟩
    | next resp _ _ herr hgs hq hans heq =>
      obtain ⟨q, sel, t, _, _, _, hh, _⟩ := next_question_spec heq
      exact Or.inl ⟨[t], hh⟩
    | summary resp _ herr hgs hnone =>
      exact Or.inl ⟨[], by simp [(generate_summary_frame resp s).1]⟩
    | restart _ =>
      exact Or.inr rfl

/-- Witness for C8's amended theorem at concrete inputs: the sample turn,
and a restart step. -/
theorem turn_contents_append_only_witness :
    (sampleTurn.question_data = sampleQuestion ∧
      ∃ opts, sampleQuestion.get "options" = some opts ∧
        opts.index 2 = some sampleTurn.user_answer) ∧
    ((∃ ts : List Turn, (restart_game initSession).history = initSession.history ++ ts) ∨
      (restart_game initSession).history = []) :=
  ⟨turn_contents_and_history_append_only.1 sampleQuestion 2 sampleTurn rfl,
   turn_contents_and_history_append_only.2 initSession (restart_game initSession)
     (Step.restart initSession)⟩

/-- Claim C9: the answer-button handler is a pure update of exactly the
selection and answered flags: it stores the clicked index, marks the turn
answered, and leaves the topic, history, current question, summary text,
game state and error unchanged, in every state and for every index. -/
theorem submit_answer_pure_frame (i : Nat) (s : Session) :
    (submit_answer i s).selected_option_index = some i ∧
    (submit_answer i s).is_answered = true ∧
    (submit_answer i s).topic = s.topic ∧
    (submit_answer i s).history = s.history ∧
    (submit_answer i s).current_question = s.current_question ∧
    (submit_answer i s).summary_content = s.summary_content ∧
    (submit_answer i s).game_state = s.game_state ∧
    (submit_answer i s).error = s.error :=
  ⟨rfl, rfl, rfl, rfl, rfl, rfl, rfl, rfl⟩

/-- Claim C10: when a mid-quiz advance's next-question request fails, the
resulting session is the old one with the just-answered turn appended and
the error message stored — the game state, current question, topic,
summary, selection and answered flag are all untouched (in particular the
appended turn is not rolled back and the state stays `'quiz'`). -/
theorem advance_failure_preserves_turn (s : Session) (q : Json) (sel : Nat) (t : Turn)
    (msg : String)
    (_hgs : s.game_state = "quiz")
    (hq : s.current_question = some q)
    (hsel : s.selected_option_index = some sel)
    (ht : mkTurn q sel = some t)
    (hlen : s.history.length + 1 < 5) :
    next_question (ApiResp.err msg) s
      = some { s with history := s.history ++ [t], error := some msg } := by
  simp only [next_question, hq, hsel, ht, Option.bind_eq_bind, Option.some_bind]
  have hcond : ¬ ((s.history ++ [t]).length ≥ 5) := by
    simp only [List.length_append, List.length_cons, List.length_nil]
    omega
  rw [if_neg hcond]
  rfl

/-- Witness for C10 at concrete inputs: a failing advance from
`sampleQuizSession`. -/
theorem advance_failure_preserves_turn_witness :
    next_question (ApiResp.err "m") sampleQuizSession
      = some { sampleQuizSession with
               history := sampleQuizSession.history ++ [sampleTurn]
               error := some "m" } :=
  advance_failure_preserves_turn sampleQuizSession sampleQuestion 2 sampleTurn "m"
    rfl rfl rfl rfl (by decide)
